import Mathlib

/-!
Shallow embedding of the dashboard state controller (the fixed App component
together with SettingsPanel and the static api profile directory).

The App component holds React state
(user, profile, notif, query, results, settings, cache) plus two generation
counters held in refs (profileToken, notifToken).  Effects react to identity
and query changes; asynchronous fetch completions are guarded by comparing the
captured generation token with the live counter.  We model the component as an
explicit state record together with a step function over events; asynchronous
completions are events whose availability is tracked by pending-fetch lists
(the set of in-flight promises).  The field notifUid is a history (ghost)
variable recording which identity the committed notification batch was fetched
for; it shadows no real state and is written only where setNotif commits.
-/

/-- A profile record, as in the api module: { id, name, email }. -/
structure Profile where
  id : String
  name : String
  email : String
deriving DecidableEq, Repr

/-- A notification record: { id, title, read }. -/
structure NotificationItem where
  id : String
  title : String
  read : Bool
deriving DecidableEq, Repr

/-- Settings record: { theme, email }. -/
structure Settings where
  theme : String
  email : Bool
deriving DecidableEq, Repr

/-- A search result entry: the { id, name } projection of a profile. -/
structure SearchEntry where
  id : String
  name : String
deriving DecidableEq, Repr

/-- The static profile directory from the api module, in object-key order
(u1, u2, u3), which is the order Object.values enumerates. -/
def profilesDir : List Profile :=
  [⟨"u1", "Alice", "alice@x.com"⟩,
   ⟨"u2", "Bob", "bob@x.com"⟩,
   ⟨"u3", "Carmen", "carmen@x.com"⟩]

/-- fetchProfile's resolved value: the directory entry for the uid, or the
absent marker (null) when the uid is not a key of the directory. -/
def lookupProfile (uid : String) : Option Profile :=
  profilesDir.find? (fun p => p.id == uid)

/-- Boolean test that the first char list is an initial segment of the second
(character-by-character, as JS String.prototype.includes scans). -/
def startsWithChars : List Char → List Char → Bool
  | [], _ => true
  | _ :: _, [] => false
  | a :: as, b :: bs => a == b && startsWithChars as bs

/-- Boolean substring containment over char lists: pat occurs contiguously in
the second list.  The empty pattern is contained everywhere, matching the JS
behavior of includes with an empty string. -/
def containsChars (pat : List Char) : List Char → Bool
  | [] => startsWithChars pat []
  | c :: rest => startsWithChars pat (c :: rest) || containsChars pat rest

/-- Lower-cased character sequence of a string (models toLowerCase). -/
def lowerChars (s : String) : List Char :=
  s.data.map Char.toLower

/-- The filter predicate of the search effect:
p.name.toLowerCase().includes(query.toLowerCase()). -/
def nameMatches (name q : String) : Bool :=
  containsChars (lowerChars q) (lowerChars name)

/-- The search effect body: filter the static directory case-insensitively by
name against the query, preserving directory order, and project each entry to
{ id, name }. -/
def computeResults (q : String) : List SearchEntry :=
  (profilesDir.filter (fun p => nameMatches p.name q)).map
    (fun p => ⟨p.id, p.name⟩)

/-- The unreadCount memo body: notif.filter(n => !n.read).length. -/
def unreadCount (notif : List NotificationItem) : Nat :=
  (notif.filter (fun n => !n.read)).length

/-- The markRead callback body: map the sequence, replacing every entry whose
id matches by a copy with read set to true, leaving the rest unchanged. -/
def markReadList (notif : List NotificationItem) (id : String) :
    List NotificationItem :=
  notif.map (fun n => if n.id = id then { n with read := true } else n)

/-- The cache update { ...prev, [user]: profile } on a string-keyed object:
overwrite in place when the key is already present (JS keeps the original key
position), otherwise append the new key at the end. -/
def cacheInsert (c : List (String × Profile)) (k : String) (v : Profile) :
    List (String × Profile) :=
  if c.any (fun e => e.fst == k) then
    c.map (fun e => if e.fst == k then (k, v) else e)
  else
    c ++ [(k, v)]

/-- Key lookup in the cache object. -/
def cacheLookup (c : List (String × Profile)) (k : String) : Option Profile :=
  (c.find? (fun e => e.fst == k)).map (fun e => e.snd)

/-- The full controller state: the App component's React state, the two
generation counters (refs), the SettingsPanel's local draft state, the sets of
in-flight fetch promises (token, uid), and the notifUid history variable. -/
structure AppState where
  user : String
  profile : Option Profile
  notif : List NotificationItem
  query : String
  results : List SearchEntry
  settings : Settings
  localDraft : Settings
  cache : List (String × Profile)
  profileToken : Nat
  notifToken : Nat
  pendingProfile : List (Nat × String)
  pendingNotif : List (Nat × String)
  notifUid : Option String
deriving DecidableEq, Repr

/-- The state right after mount: user u1, both effects have run once (tokens
at 1, one profile fetch and one notification fetch in flight for u1), search
results computed for the empty query, default settings mirrored into the
panel's local draft, empty cache. -/
def initState : AppState where
  user := "u1"
  profile := none
  notif := []
  query := ""
  results := computeResults ""
  settings := ⟨"light", true⟩
  localDraft := ⟨"light", true⟩
  cache := []
  profileToken := 1
  notifToken := 1
  pendingProfile := [(1, "u1")]
  pendingNotif := [(1, "u1")]
  notifUid := none

/-- Remove the first occurrence of a pair from a pending list (a promise that
has resolved leaves the in-flight set). -/
def eraseFirst : List (Nat × String) → Nat × String → List (Nat × String)
  | [], _ => []
  | y :: ys, x => if y = x then ys else y :: eraseFirst ys x

/-- Events the controller reacts to: user-driven triggers (setUser, setQuery,
markRead, local settings edits) and asynchronous completions (profile fetch,
notification fetch, settings persistence), each completion carrying the data
it captured or the value it resolved with. -/
inductive Event where
  | setUser (uid : String)
  | setQuery (q : String)
  | profileDone (t : Nat) (uid : String)
  | notifDone (t : Nat) (uid : String) (result : List NotificationItem)
  | markRead (id : String)
  | editDraft (d : Settings)
  | saveDone (ok : Bool) (v : Settings)
deriving DecidableEq, Repr

/-- One atomic reaction of the controller to an event, translated from the
fixed App component:

* setUser: React bails out on an identical value; otherwise the profile and
  notification effects each increment their token and start a fetch for the
  new user, and the cache effect re-runs (its deps are [profile, user]) with
  the still-displayed old profile, inserting it under the new user key when
  it is non-null.  The profile is NOT cleared.
* setQuery: recompute results from the static directory (bail on identical
  value).
* profileDone: only an in-flight promise can resolve; its captured token is
  compared with the live counter — a mismatch discards the result with no
  state write.  A current-generation result is committed via setProfile
  (React bails when the value is unchanged), and the cache effect then reacts
  to the committed profile, inserting it under the current user when non-null.
* notifDone: same token guard; a current-generation result replaces the
  notification sequence (notifUid is the ghost record of its uid).
* markRead: immutable map over the sequence.
* editDraft: the SettingsPanel local state setter.
* saveDone: SettingsPanel.save awaits persistence; on ok the confirmed value
  is passed to onSave, which replaces the authoritative settings, and the
  panel's sync effect resets the local draft to it; on not-ok nothing runs. -/
def step (e : Event) (s : AppState) : AppState :=
  match e with
  | .setUser uid =>
      if uid = s.user then s
      else
        { s with
          user := uid
          profileToken := s.profileToken + 1
          notifToken := s.notifToken + 1
          pendingProfile := s.pendingProfile ++ [(s.profileToken + 1, uid)]
          pendingNotif := s.pendingNotif ++ [(s.notifToken + 1, uid)]
          cache :=
            match s.profile with
            | some p => cacheInsert s.cache uid p
            | none => s.cache }
  | .setQuery q =>
      if q = s.query then s
      else { s with query := q, results := computeResults q }
  | .profileDone t uid =>
      if (t, uid) ∈ s.pendingProfile then
        if t = s.profileToken then
          if lookupProfile uid = s.profile then
            { s with pendingProfile := eraseFirst s.pendingProfile (t, uid) }
          else
            { s with
              pendingProfile := eraseFirst s.pendingProfile (t, uid)
              profile := lookupProfile uid
              cache :=
                match lookupProfile uid with
                | some p => cacheInsert s.cache s.user p
                | none => s.cache }
        else
          { s with pendingProfile := eraseFirst s.pendingProfile (t, uid) }
      else s
  | .notifDone t uid result =>
      if (t, uid) ∈ s.pendingNotif then
        if t = s.notifToken then
          { s with
            pendingNotif := eraseFirst s.pendingNotif (t, uid)
            notif := result
            notifUid := some uid }
        else
          { s with pendingNotif := eraseFirst s.pendingNotif (t, uid) }
      else s
  | .markRead id => { s with notif := markReadList s.notif id }
  | .editDraft d => { s with localDraft := d }
  | .saveDone ok v =>
      if ok then { s with settings := v, localDraft := v }
      else s

/-- Run the controller from the post-mount state through a list of events. -/
def runEvents (es : List Event) : AppState :=
  es.foldl (fun s e => step e s) initState

/-- The most recently set identity of an event sequence (u1 before any
setUser event). -/
def lastIdentity (es : List Event) : String :=
  es.foldl (fun u e => match e with | .setUser v => v | _ => u) "u1"

/-- Controller invariant: every in-flight fetch token is at most the live
counter and an in-flight fetch holding the live token is for the current
user; for each fetch kind, either the current-generation fetch is still in
flight or the committed value is the one fetched for the current user; and
the results list is the pure recomputation from the current query. -/
def CtrlInv (s : AppState) : Prop :=
  (∀ p ∈ s.pendingProfile,
      p.1 ≤ s.profileToken ∧ (p.1 = s.profileToken → p.2 = s.user)) ∧
  (∀ p ∈ s.pendingNotif,
      p.1 ≤ s.notifToken ∧ (p.1 = s.notifToken → p.2 = s.user)) ∧
  ((s.profileToken, s.user) ∈ s.pendingProfile ∨
      s.profile = lookupProfile s.user) ∧
  ((s.notifToken, s.user) ∈ s.pendingNotif ∨ s.notifUid = some s.user) ∧
  s.results = computeResults s.query

/-- The state after the mount-time profile fetch for u1 resolves (Alice). -/
def afterAlice : AppState := step (.profileDone 1 "u1") initState

/-- The state after switching to an identity absent from the directory. -/
def afterU9 : AppState := step (.setUser "u9") initState

/-- Scenario: switch to u2 while u1's fetches are in flight, resolve u2's
fetches first, then let u1's stale fetches resolve last. -/
def raceEvents : List Event :=
  [.setUser "u2",
   .profileDone 2 "u2",
   .notifDone 2 "u2" [⟨"u2-n0", "N1 for u2", false⟩],
   .profileDone 1 "u1",
   .notifDone 1 "u1" []]

/-- Two unread notifications sharing one id. -/
def dupNotifs : List NotificationItem :=
  [⟨"a", "x", false⟩, ⟨"a", "y", false⟩]

/-- An unread and a read notification with distinct ids. -/
def twoNotifs : List NotificationItem :=
  [⟨"n1", "a", false⟩, ⟨"n2", "b", true⟩]

/-- A single unread notification. -/
def oneNotif : List NotificationItem :=
  [⟨"n1", "t", false⟩]

theorem mem_of_mem_eraseFirst {l : List (Nat × String)} {x y : Nat × String}
    (h : y ∈ eraseFirst l x) : y ∈ l := by
  induction l with
  | nil => simp [eraseFirst] at h
  | cons z zs ih =>
    by_cases hz : z = x
    · rw [eraseFirst, if_pos hz] at h
      exact List.mem_cons_of_mem _ h
    · rw [eraseFirst, if_neg hz] at h
      rcases List.mem_cons.mp h with h | h
      · exact h ▸ List.mem_cons_self _ _
      · exact List.mem_cons_of_mem _ (ih h)

theorem mem_eraseFirst_of_ne {l : List (Nat × String)} {x y : Nat × String}
    (hne : y ≠ x) (h : y ∈ l) : y ∈ eraseFirst l x := by
  induction l with
  | nil => simp at h
  | cons z zs ih =>
    by_cases hz : z = x
    · rw [eraseFirst, if_pos hz]
      rcases List.mem_cons.mp h with h | h
      · exact absurd (h.trans hz) hne
      · exact h
    · rw [eraseFirst, if_neg hz]
      rcases List.mem_cons.mp h with h | h
      · exact h ▸ List.mem_cons_self _ _
      · exact List.mem_cons_of_mem _ (ih h)

theorem CtrlInv_initState : CtrlInv initState := by
  refine ⟨?_, ?_, ?_, ?_, rfl⟩ <;> decide

theorem CtrlInv_step (e : Event) (s : AppState) (h : CtrlInv s) :
    CtrlInv (step e s) := by
  obtain ⟨h1, h2, h3, h4, h5⟩ := h
  cases e with
  | setUser uid =>
    by_cases hu : uid = s.user
    · simpa [step, hu] using ⟨h1, h2, h3, h4, h5⟩
    · simp only [step, if_neg hu]
      refine ⟨?_, ?_, ?_, ?_, h5⟩
      · intro p hp
        show p.1 ≤ s.profileToken + 1 ∧ (p.1 = s.profileToken + 1 → p.2 = uid)
        rcases List.mem_append.mp hp with hp | hp
        · have hle := (h1 p hp).1
          exact ⟨Nat.le_succ_of_le hle, fun he => absurd he (by omega)⟩
        · rcases List.mem_singleton.mp hp with rfl
          exact ⟨Nat.le_refl _, fun _ => rfl⟩
      · intro p hp
        show p.1 ≤ s.notifToken + 1 ∧ (p.1 = s.notifToken + 1 → p.2 = uid)
        rcases List.mem_append.mp hp with hp | hp
        · have hle := (h2 p hp).1
          exact ⟨Nat.le_succ_of_le hle, fun he => absurd he (by omega)⟩
        · rcases List.mem_singleton.mp hp with rfl
          exact ⟨Nat.le_refl _, fun _ => rfl⟩
      · exact Or.inl (List.mem_append_right _ (List.mem_singleton.mpr rfl))
      · exact Or.inl (List.mem_append_right _ (List.mem_singleton.mpr rfl))
  | setQuery q =>
    by_cases hq : q = s.query
    · simpa [step, hq] using ⟨h1, h2, h3, h4, h5⟩
    · simp only [step, if_neg hq]
      exact ⟨h1, h2, h3, h4, rfl⟩
  | profileDone t uid =>
    by_cases hm : (t, uid) ∈ s.pendingProfile
    · by_cases ht : t = s.profileToken
      · have huid : uid = s.user := (h1 (t, uid) hm).2 ht
        by_cases hb : lookupProfile uid = s.profile
        · simp only [step, if_pos hm, if_pos ht, if_pos hb]
          refine ⟨?_, h2, ?_, h4, h5⟩
          · intro p hp
            exact h1 p (mem_of_mem_eraseFirst hp)
          · exact Or.inr (by rw [← hb, huid])
        · simp only [step, if_pos hm, if_pos ht, if_neg hb]
          refine ⟨?_, h2, ?_, h4, h5⟩
          · intro p hp
            exact h1 p (mem_of_mem_eraseFirst hp)
          · exact Or.inr (by rw [huid])
      · simp only [step, if_pos hm, if_neg ht]
        refine ⟨?_, h2, ?_, h4, h5⟩
        · intro p hp
          exact h1 p (mem_of_mem_eraseFirst hp)
        · rcases h3 with h3 | h3
          · refine Or.inl (mem_eraseFirst_of_ne ?_ h3)
            intro hcon
            exact ht (congrArg Prod.fst hcon).symm
          · exact Or.inr h3
    · simpa [step, hm] using ⟨h1, h2, h3, h4, h5⟩
  | notifDone t uid result =>
    by_cases hm : (t, uid) ∈ s.pendingNotif
    · by_cases ht : t = s.notifToken
      · have huid : uid = s.user := (h2 (t, uid) hm).2 ht
        simp only [step, if_pos hm, if_pos ht]
        refine ⟨h1, ?_, h3, ?_, h5⟩
        · intro p hp
          exact h2 p (mem_of_mem_eraseFirst hp)
        · exact Or.inr (by rw [huid])
      · simp only [step, if_pos hm, if_neg ht]
        refine ⟨h1, ?_, h3, ?_, h5⟩
        · intro p hp
          exact h2 p (mem_of_mem_eraseFirst hp)
        · rcases h4 with h4 | h4
          · refine Or.inl (mem_eraseFirst_of_ne ?_ h4)
            intro hcon
            exact ht (congrArg Prod.fst hcon).symm
          · exact Or.inr h4
    · simpa [step, hm] using ⟨h1, h2, h3, h4, h5⟩
  | markRead id => exact ⟨h1, h2, h3, h4, h5⟩
  | editDraft d => exact ⟨h1, h2, h3, h4, h5⟩
  | saveDone ok v =>
    cases ok
    · exact ⟨h1, h2, h3, h4, h5⟩
    · exact ⟨h1, h2, h3, h4, h5⟩

theorem CtrlInv_runEvents (es : List Event) : CtrlInv (runEvents es) := by
  have aux : ∀ (es : List Event) (s : AppState), CtrlInv s →
      CtrlInv (es.foldl (fun s e => step e s) s) := by
    intro es
    induction es with
    | nil => exact fun s h => h
    | cons e es ih => exact fun s h => ih _ (CtrlInv_step e s h)
  exact aux es initState CtrlInv_initState

theorem user_runEvents (es : List Event) :
    (runEvents es).user = lastIdentity es := by
  have aux : ∀ (es : List Event) (s : AppState),
      (es.foldl (fun s e => step e s) s).user
        = es.foldl (fun u e => match e with | .setUser v => v | _ => u) s.user := by
    intro es
    induction es with
    | nil => exact fun _ => rfl
    | cons e es ih =>
      intro s
      rw [List.foldl_cons, List.foldl_cons, ih]
      have huser : (step e s).user
          = (match e with | .setUser v => v | _ => s.user : String) := by
        cases e with
        | setUser v => by_cases h : v = s.user <;> simp [step, h]
        | setQuery q => by_cases h : q = s.query <;> simp [step, h]
        | profileDone t uid =>
          simp only [step]
          split
          · split
            · split <;> rfl
            · rfl
          · rfl
        | notifDone t uid result =>
          simp only [step]
          split
          · split <;> rfl
          · rfl
        | markRead id => rfl
        | editDraft d => rfl
        | saveDone ok v => cases ok <;> rfl
      rw [huser]
  exact aux es initState

theorem unreadCount_cons (n : NotificationItem) (l : List NotificationItem) :
    unreadCount (n :: l) = (if n.read then 0 else 1) + unreadCount l := by
  unfold unreadCount
  rw [List.filter_cons]
  cases h : n.read <;> (simp [h]; try omega)

theorem markReadList_cons (n : NotificationItem) (l : List NotificationItem)
    (id : String) :
    markReadList (n :: l) id
      = (if n.id = id then { n with read := true } else n) :: markReadList l id := by
  unfold markReadList
  rw [List.map_cons]

theorem markReadList_eq_of_forall_ne (l : List NotificationItem) (id : String)
    (h : ∀ n ∈ l, n.id ≠ id) : markReadList l id = l := by
  induction l with
  | nil => rfl
  | cons n ns ih =>
    rw [markReadList_cons, if_neg (h n (List.mem_cons_self n ns)),
      ih (fun m hm => h m (List.mem_cons_of_mem n hm))]

theorem markReadList_eq_of_all_read (l : List NotificationItem) (id : String)
    (h : ∀ n ∈ l, n.id = id → n.read = true) : markReadList l id = l := by
  induction l with
  | nil => rfl
  | cons n ns ih =>
    rw [markReadList_cons, ih (fun m hm hid => h m (List.mem_cons_of_mem n hm) hid)]
    by_cases hn : n.id = id
    · rw [if_pos hn]
      have hr := h n (List.mem_cons_self n ns) hn
      cases n with
      | mk i t r =>
        simp only at hr
        rw [hr]
    · rw [if_neg hn]

theorem unread_markRead_succ (id : String) (N : List NotificationItem)
    (hnd : (N.map (fun n => n.id)).Nodup)
    (hex : ∃ n ∈ N, n.id = id ∧ n.read = false) :
    unreadCount (markReadList N id) + 1 = unreadCount N := by
  induction N with
  | nil => simp at hex
  | cons n ns ih =>
    rw [List.map_cons, List.nodup_cons] at hnd
    obtain ⟨hnotin, hnd2⟩ := hnd
    by_cases hn : n.id = id
    · have hns : ∀ m ∈ ns, m.id ≠ id := by
        intro m hm heq
        exact hnotin (by rw [← hn] at heq; exact heq ▸ List.mem_map_of_mem _ hm)
      have hnread : n.read = false := by
        obtain ⟨m, hm, hmid, hmr⟩ := hex
        rcases List.mem_cons.mp hm with h | h
        · rw [← h]; exact hmr
        · exact absurd hmid (hns m h)
      rw [markReadList_cons, if_pos hn, markReadList_eq_of_forall_ne ns id hns,
        unreadCount_cons, unreadCount_cons, hnread]
      simp
      omega
    · have hex2 : ∃ m ∈ ns, m.id = id ∧ m.read = false := by
        obtain ⟨m, hm, hmid, hmr⟩ := hex
        rcases List.mem_cons.mp hm with h | h
        · exact absurd (h ▸ hmid) hn
        · exact ⟨m, h, hmid, hmr⟩
      rw [markReadList_cons, if_neg hn, unreadCount_cons, unreadCount_cons]
      have hrec := ih hnd2 hex2
      omega

/-- C2: the claim says the Cache maps an identity only to a profile that is
the result of the most recently initiated profile fetch for that identity,
never another identity's profile.  The code violates it: the cache effect has
dependencies [profile, user], so an identity change re-runs it while the old
identity's profile is still displayed, committing that old profile under the
new identity's key.  From the post-mount state, resolving u1's fetch (Alice)
and then switching to u2 leaves the cache mapping u2 to Alice, whose id is
u1. -/
theorem c2_cache_cross_identity :
    cacheLookup (runEvents [.profileDone 1 "u1", .setUser "u2"]).cache "u2"
        = some ⟨"u1", "Alice", "alice@x.com"⟩ ∧
    (runEvents [.profileDone 1 "u1", .setUser "u2"]).user = "u2" := by
  constructor <;> rfl

/-- C3 counterexample: the claim says an identity change clears the displayed
Profile to the loading/absent state.  It does not: after u1's profile (Alice)
is committed, switching to u2 leaves Alice displayed (profile is still some
Alice, not none), while the generation counter does increment. -/
theorem c3_counterexample :
    (step (.setUser "u2") afterAlice).profile
        = some ⟨"u1", "Alice", "alice@x.com"⟩ ∧
    (step (.setUser "u2") afterAlice).user = "u2" ∧
    afterAlice.user = "u1" := by
  refine ⟨rfl, rfl, rfl⟩

/-- C3 (amended): an identity change increments both generation counters and
issues fresh fetches, but leaves the displayed Profile unchanged; the old
identity's profile remains displayed until the new fetch's current-generation
result is committed. -/
theorem c3_generation_increment (s : AppState) (uid : String)
    (h : uid ≠ s.user) :
    (step (.setUser uid) s).profileToken = s.profileToken + 1 ∧
    (step (.setUser uid) s).notifToken = s.notifToken + 1 ∧
    (step (.setUser uid) s).profile = s.profile ∧
    (s.profileToken + 1, uid) ∈ (step (.setUser uid) s).pendingProfile := by
  refine ⟨?_, ?_, ?_, ?_⟩
  · simp [step, h]
  · simp [step, h]
  · simp [step, h]
  · simp only [step, if_neg h]
    exact List.mem_append_right _ (List.mem_singleton.mpr rfl)

theorem c3_witness :
    (step (.setUser "u2") initState).profileToken = initState.profileToken + 1 ∧
    (step (.setUser "u2") initState).notifToken = initState.notifToken + 1 ∧
    (step (.setUser "u2") initState).profile = initState.profile ∧
    (initState.profileToken + 1, "u2")
        ∈ (step (.setUser "u2") initState).pendingProfile :=
  c3_generation_increment initState "u2" (by decide)

/-- C4: the committed search results always equal the pure recomputation from
the current query (they never depend on a previous query's result); a query
change commits exactly computeResults q; the empty query yields the full
directory projected to id and name; and the filter is case-insensitive
substring matching on the name (ali and ALI both select Alice). -/
theorem c4_search_purity :
    (∀ es : List Event, (runEvents es).results
        = computeResults (runEvents es).query) ∧
    (∀ (es : List Event) (q : String),
        (step (.setQuery q) (runEvents es)).results = computeResults q) ∧
    computeResults "" = profilesDir.map (fun p => SearchEntry.mk p.id p.name) ∧
    computeResults "ali" = [⟨"u1", "Alice"⟩] ∧
    computeResults "ALI" = [⟨"u1", "Alice"⟩] ∧
    computeResults "zzz" = [] := by
  refine ⟨?_, ?_, by decide, by decide, by decide, by decide⟩
  · intro es
    obtain ⟨_, _, _, _, i5⟩ := CtrlInv_runEvents es
    exact i5
  · intro es q
    by_cases h : q = (runEvents es).query
    · obtain ⟨_, _, _, _, i5⟩ := CtrlInv_runEvents es
      simp only [step, if_pos h]
      rw [i5, h]
    · simp only [step, if_neg h]

/-- C5 counterexample: the claim quantifies over every notification sequence,
but when two unread entries share one id, markRead of that id marks both, and
the unread count drops by 2, not by exactly 1, although some entry of the
sequence has that id and was previously unread. -/
theorem c5_counterexample :
    (∃ n ∈ dupNotifs, n.id = "a" ∧ n.read = false) ∧
    unreadCount dupNotifs = 2 ∧
    unreadCount (markReadList dupNotifs "a") = 0 := by
  refine ⟨?_, rfl, rfl⟩
  decide

/-- C5 (amended): for every notification sequence N, unreadCount N is the
number of entries with read = false; marking an id all of whose entries are
already read leaves the count unchanged (in fact the sequence itself is
unchanged); and when the entry ids of N are pairwise distinct — as every
fetched batch satisfies — markRead of an id carried by some unread entry
decreases the count by exactly 1. -/
theorem c5_unread_recompute (N : List NotificationItem) (id : String) :
    unreadCount N = (N.filter (fun n => n.read = false)).length ∧
    ((∀ n ∈ N, n.id = id → n.read = true) →
        unreadCount (markReadList N id) = unreadCount N) ∧
    ((N.map (fun n => n.id)).Nodup →
        (∃ n ∈ N, n.id = id ∧ n.read = false) →
        unreadCount (markReadList N id) + 1 = unreadCount N) := by
  refine ⟨?_, ?_, unread_markRead_succ id N⟩
  · unfold unreadCount
    congr 1
    apply List.filter_congr
    intro n _
    cases h : n.read <;> simp [h]
  · intro h
    rw [markReadList_eq_of_all_read N id h]

theorem c5_witness :
    unreadCount (markReadList twoNotifs "n1") + 1 = unreadCount twoNotifs ∧
    unreadCount (markReadList twoNotifs "n2") = unreadCount twoNotifs :=
  ⟨(c5_unread_recompute twoNotifs "n1").2.2 (by decide) (by decide),
   (c5_unread_recompute twoNotifs "n2").2.1 (by decide)⟩

/-- C6: the markRead callback applied to the notification state maps the
sequence elementwise, so it preserves length and order; the entry at every
position is the original entry, with read set to true exactly when its id
matches; and when no entry matches the id the sequence is unchanged (a no-op,
not an error). -/
theorem c6_mark_read (N : List NotificationItem) (id : String) :
    (∀ s : AppState, (step (.markRead id) s).notif = markReadList s.notif id) ∧
    (markReadList N id).length = N.length ∧
    (∀ i : Nat, (markReadList N id)[i]?
        = (N[i]?).map
            (fun n => if n.id = id then { n with read := true } else n)) ∧
    ((∀ n ∈ N, n.id ≠ id) → markReadList N id = N) := by
  refine ⟨fun s => rfl, ?_, ?_, markReadList_eq_of_forall_ne N id⟩
  · unfold markReadList
    exact List.length_map _ _
  · intro i
    unfold markReadList
    exact List.getElem?_map _ _ _

theorem c6_witness : markReadList oneNotif "zz" = oneNotif :=
  (c6_mark_read oneNotif "zz").2.2.2 (by decide)

/-- C7: a successful settings save commits the confirmed record wholesale: the
authoritative settings become exactly the committed record, so both of its
fields are present and nothing of the prior value survives unless it equals
the corresponding field of the new record. -/
theorem c7_settings_commit (s : AppState) (v : Settings) :
    (step (.saveDone true v) s).settings = v ∧
    (step (.saveDone true v) s).settings.theme = v.theme ∧
    (step (.saveDone true v) s).settings.email = v.email :=
  ⟨rfl, rfl, rfl⟩

/-- C8: when the persistence call resolves ok, the authoritative settings
become the value the persistence layer returned (the confirmed value, not
necessarily the draft that was sent); when it resolves not-ok, the
authoritative settings are unchanged and the panel's local draft retains the
user's attempted edit. -/
theorem c8_save_result (s : AppState) (v : Settings) :
    (step (.saveDone true v) s).settings = v ∧
    (step (.saveDone false v) s).settings = s.settings ∧
    (step (.saveDone false v) s).localDraft = s.localDraft :=
  ⟨rfl, rfl, rfl⟩

/-- C9: whenever a step changes the authoritative settings (the only path is
a successful save commit), the panel's local draft is reset to the new
authoritative value, discarding any uncommitted local edit. -/
theorem c9_draft_resync (e : Event) (s : AppState)
    (h : (step e s).settings ≠ s.settings) :
    (step e s).localDraft = (step e s).settings := by
  cases e with
  | setUser uid =>
    exact absurd (by by_cases hu : uid = s.user <;> simp [step, hu]) h
  | setQuery q =>
    exact absurd (by by_cases hq : q = s.query <;> simp [step, hq]) h
  | profileDone t uid =>
    refine absurd ?_ h
    simp only [step]
    split
    · split
      · split <;> rfl
      · rfl
    · rfl
  | notifDone t uid result =>
    refine absurd ?_ h
    simp only [step]
    split
    · split <;> rfl
    · rfl
  | markRead id => exact absurd rfl h
  | editDraft d => exact absurd rfl h
  | saveDone ok v =>
    cases ok
    · exact absurd rfl h
    · rfl

theorem c9_witness :
    (step (.saveDone true ⟨"dark", false⟩) initState).settings
        ≠ initState.settings ∧
    (step (.saveDone true ⟨"dark", false⟩) initState).localDraft
        = (step (.saveDone true ⟨"dark", false⟩) initState).settings :=
  ⟨by decide, c9_draft_resync (.saveDone true ⟨"dark", false⟩) initState
      (by decide)⟩

/-- C10: a current-generation profile fetch that resolves to the absent
marker commits the absent result to the displayed Profile, and the cache is
left completely unchanged (the cache effect only inserts non-null profiles),
so no entry is inserted, overwritten or removed for any identity. -/
theorem c10_absent_profile_frame (s : AppState) (t : Nat) (uid : String)
    (hm : (t, uid) ∈ s.pendingProfile) (ht : t = s.profileToken)
    (hl : lookupProfile uid = none) :
    (step (.profileDone t uid) s).profile = none ∧
    (step (.profileDone t uid) s).cache = s.cache := by
  by_cases hb : lookupProfile uid = s.profile
  · refine ⟨?_, ?_⟩
    · simp only [step, if_pos hm, if_pos ht, if_pos hb]
      exact hb.symm.trans hl
    · simp only [step, if_pos hm, if_pos ht, if_pos hb]
  · rw [hl] at hb
    refine ⟨?_, ?_⟩
    · simp only [step, if_pos hm, if_pos ht, hl, if_neg hb]
    · simp only [step, if_pos hm, if_pos ht, hl, if_neg hb]

theorem c10_witness :
    (step (.profileDone 2 "u9") afterU9).profile = none ∧
    (step (.profileDone 2 "u9") afterU9).cache = afterU9.cache :=
  c10_absent_profile_frame afterU9 2 "u9" (by decide) (by decide) (by decide)

/-- C1: a profile or notification completion whose captured generation token
differs from the live counter for its fetch kind is discarded silently — the
displayed profile, the notification sequence, the cache, the user, the
settings and the search results are all unchanged; and along any event
sequence, once every profile (resp. notification) fetch has resolved, the
committed Profile is the fetch result for the most recently set identity
(resp. the committed notification batch was fetched for that identity), never
an earlier identity's result, regardless of completion order. -/
theorem c1_no_stale_overwrite :
    (∀ (s : AppState) (t : Nat) (uid : String), t ≠ s.profileToken →
        (step (.profileDone t uid) s).profile = s.profile ∧
        (step (.profileDone t uid) s).cache = s.cache ∧
        (step (.profileDone t uid) s).notif = s.notif ∧
        (step (.profileDone t uid) s).user = s.user ∧
        (step (.profileDone t uid) s).settings = s.settings ∧
        (step (.profileDone t uid) s).results = s.results) ∧
    (∀ (s : AppState) (t : Nat) (uid : String) (r : List NotificationItem),
        t ≠ s.notifToken →
        (step (.notifDone t uid r) s).notif = s.notif ∧
        (step (.notifDone t uid r) s).profile = s.profile ∧
        (step (.notifDone t uid r) s).cache = s.cache ∧
        (step (.notifDone t uid r) s).user = s.user ∧
        (step (.notifDone t uid r) s).settings = s.settings ∧
        (step (.notifDone t uid r) s).results = s.results) ∧
    (∀ es : List Event,
        ((runEvents es).pendingProfile = [] →
            (runEvents es).profile = lookupProfile (lastIdentity es)) ∧
        ((runEvents es).pendingNotif = [] →
            (runEvents es).notifUid = some (lastIdentity es))) := by
  refine ⟨?_, ?_, ?_⟩
  · intro s t uid ht
    by_cases hm : (t, uid) ∈ s.pendingProfile
    · have hstep : step (.profileDone t uid) s
          = { s with pendingProfile := eraseFirst s.pendingProfile (t, uid) } := by
        simp only [step, if_pos hm, if_neg ht]
      rw [hstep]
      exact ⟨rfl, rfl, rfl, rfl, rfl, rfl⟩
    · have hstep : step (.profileDone t uid) s = s := by
        simp only [step, if_neg hm]
      rw [hstep]
      exact ⟨rfl, rfl, rfl, rfl, rfl, rfl⟩
  · intro s t uid r ht
    by_cases hm : (t, uid) ∈ s.pendingNotif
    · have hstep : step (.notifDone t uid r) s
          = { s with pendingNotif := eraseFirst s.pendingNotif (t, uid) } := by
        simp only [step, if_pos hm, if_neg ht]
      rw [hstep]
      exact ⟨rfl, rfl, rfl, rfl, rfl, rfl⟩
    · have hstep : step (.notifDone t uid r) s = s := by
        simp only [step, if_neg hm]
      rw [hstep]
      exact ⟨rfl, rfl, rfl, rfl, rfl, rfl⟩
  · intro es
    obtain ⟨_, _, i3, i4, _⟩ := CtrlInv_runEvents es
    have hu := user_runEvents es
    refine ⟨?_, ?_⟩
    · intro hp
      rcases i3 with h | h
      · rw [hp] at h
        simp at h
      · rw [h, hu]
    · intro hp
      rcases i4 with h | h
      · rw [hp] at h
        simp at h
      · rw [h, hu]

theorem c1_witness :
    (step (.profileDone 0 "u2") initState).profile = initState.profile ∧
    (step (.notifDone 0 "u2" []) initState).notif = initState.notif ∧
    (runEvents raceEvents).pendingProfile = [] ∧
    (runEvents raceEvents).pendingNotif = [] ∧
    (runEvents raceEvents).profile = lookupProfile "u2" ∧
    (runEvents raceEvents).notifUid = some "u2" :=
  ⟨(c1_no_stale_overwrite.1 initState 0 "u2" (by decide)).1,
   (c1_no_stale_overwrite.2.1 initState 0 "u2" [] (by decide)).1,
   by decide, by decide,
   (c1_no_stale_overwrite.2.2 raceEvents).1 (by decide),
   (c1_no_stale_overwrite.2.2 raceEvents).2 (by decide)⟩
